import Mathlib

/-!
Verification of the pyCyberGear motor-control library (`pycybergear/CyberGear.py`)
against its natural-language specification.

The Python class `CyberGear` is shallowly embedded:

* pure helpers (`_can_to_uart`, `_uart_to_can`, `_float_to_uint`,
  `_uint_to_float`, the arbitration-ID packing of `_send_can`) become pure
  Lean functions over `List ℕ` / `ℚ` / `ℤ`;
* the stateful request/reply pipeline (`_write_port`, `_read_port`,
  `_receive_can`, `_reply_state`, `_write_prop`, `_read_prop`, `motor_stop`,
  `set_id`, `get_id`, `get_volcur`) becomes explicit state passing over a
  `World` record, with Python exceptions modelled by `Except PyErr`;
* Python floats are modelled by `ℚ` (the arithmetic the code performs is
  exact on the inputs the claims quantify over); the one genuinely
  bit-level float operation (`struct.pack/unpack 'f'`) is kept abstract as
  a codec parameter, and is only ever exercised on unreachable branches.

The serial connection is modelled by an `inbox`: a list of byte chunks,
chunk `k` being the bytes available to the `k`-th `_read_port` call, and a
`sent` trace recording every buffer handed to `serial.write`.
-/

/-- The two transport variants selected by the `model` constructor argument:
`"DR"` (16-byte envelope) and `"CAN"` (17-byte envelope). -/
inductive Model where
  | DR
  | CAN
deriving DecidableEq, Repr

/-- Net effect of the Python loop `for i in range(len v): l[s + i] = v[i]`:
overwrite the slots `s, s+1, …` of `l` with the elements of `v`.  All uses
below have `s + v.length ≤ l.length`, matching the in-bounds Python writes. -/
def setRange (l : List ℕ) (s : ℕ) (v : List ℕ) : List ℕ :=
  l.take s ++ v ++ l.drop (s + v.length)

/-- `_can_to_uart` (CyberGear.py lines 180–209): wrap a 13-byte logical CAN
frame in the serial envelope of the chosen model.  For `"DR"` the guard is
`len(data) == 13 and data[0] == 0x08` and the 12 bytes `data[1..12]` are
copied to envelope slots 4..15; on guard failure the function returns `[]`.
For `"CAN"` the guard is `len(data) == 13 and data[4] == 0x08`, all 13 bytes
are copied to slots 2..14, and the (possibly untouched) template is returned
either way. -/
def can_to_uart (m : Model) (data : List ℕ) : List ℕ :=
  match m with
  | .DR =>
    let udata : List ℕ := [0xAA, 1, 0, 0x08, 0, 0, 0, 0, 0, 0, 0, 0, 0, 0, 0, 0]
    if data.length = 13 ∧ data.getD 0 0 = 0x08 then
      setRange udata 4 ((data.drop 1).take 12)
    else []
  | .CAN =>
    let udata : List ℕ :=
      [0x41, 0x54, 0, 0, 0, 0, 0x08, 0, 0, 0, 0, 0, 0, 0, 0, 0x0d, 0x0a]
    if data.length = 13 ∧ data.getD 4 0 = 0x08 then
      setRange udata 2 (data.take 13)
    else udata

/-- `_uart_to_can` (CyberGear.py lines 211–238): unwrap a serial envelope
back into a 13-byte logical CAN frame.  Takes and returns the current
`READ_FLAG` value: on a malformed buffer the source sets `READ_FLAG = -1`
and returns `[]`; on success the flag is left unchanged.  `"DR"` requires
length 16 and `data[3] == 0x08` and copies `data[4..15]` behind a fixed
DLC byte; `"CAN"` requires length 17 and `data[6] == 0x08` and copies
`data[2..14]`. -/
def uart_to_can (m : Model) (flag : ℤ) (data : List ℕ) : ℤ × List ℕ :=
  match m with
  | .DR =>
    let cdata : List ℕ := [0x08, 0, 0, 0, 0, 0, 0, 0, 0, 0, 0, 0, 0]
    if data.length = 16 ∧ data.getD 3 0 = 0x08 then
      (flag, setRange cdata 1 ((data.drop 4).take 12))
    else (-1, [])
  | .CAN =>
    let cdata : List ℕ := [0, 0, 0, 0, 0x08, 0, 0, 0, 0, 0, 0, 0, 0]
    if data.length = 17 ∧ data.getD 6 0 = 0x08 then
      (flag, setRange cdata 0 ((data.drop 2).take 13))
    else (-1, [])

/-- The claim-side well-formedness condition on an incoming envelope:
exact variant length and the literal DLC marker `0x08` at the variant's
fixed offset (offset 3 for `"DR"`, offset 6 for `"CAN"`). -/
def envelopeOK (m : Model) (data : List ℕ) : Prop :=
  match m with
  | .DR => data.length = 16 ∧ data.getD 3 0 = 0x08
  | .CAN => data.length = 17 ∧ data.getD 6 0 = 0x08

instance (m : Model) (data : List ℕ) : Decidable (envelopeOK m data) := by
  cases m <;> simp only [envelopeOK] <;> infer_instance

/-- Python `int()` applied to a (real-valued) quantity: truncation toward
zero. -/
def pyInt (q : ℚ) : ℤ := if 0 ≤ q then ⌊q⌋ else -⌊-q⌋

/-- `_float_to_uint` (CyberGear.py lines 374–397): with `span = x_max -
x_min` and `offset = x_min`, clamp `x` into `[x_min, x_max]` (via `if x >
x_max … elif x < x_min …`), then return
`int((x - offset) * ((1 << bits) - 1) / span)`. -/
def float_to_uint (x x_min x_max : ℚ) (bits : ℕ) : ℤ :=
  pyInt (((if x > x_max then x_max else if x < x_min then x_min else x) - x_min)
    * (((1 <<< bits : ℕ) : ℚ) - 1) / (x_max - x_min))

/-- `_uint_to_float` (CyberGear.py lines 399–422): with `span = (1 << bits)
- 1` and `offset = x_max - x_min`, clamp the integer `x` into `[0, span]`,
then return `offset * x / span + x_min`. -/
def uint_to_float (x : ℤ) (x_min x_max : ℚ) (bits : ℕ) : ℚ :=
  (x_max - x_min) *
    (((if x > ((1 <<< bits : ℕ) : ℤ) - 1 then ((1 <<< bits : ℕ) : ℤ) - 1
       else if x < 0 then 0 else x) : ℤ) : ℚ)
    / ((((1 <<< bits : ℕ) : ℤ) - 1 : ℤ) : ℚ) + x_min

/-- Python exceptions arising in the modelled code paths. -/
inductive PyErr where
  | indexError
  | typeError
  | nameError
  | structError
deriving DecidableEq, Repr

/-- Python subscript `l[i]` (nonnegative `i`) on a list: out of range raises
`IndexError`. -/
def pyGetL (l : List ℕ) (i : ℕ) : Except PyErr ℕ :=
  if h : i < l.length then .ok (l.get ⟨i, h⟩) else .error .indexError

/-- Python subscript `xs[i]` where `xs` may be `None` (as after a failed
receive): subscripting `None` raises `TypeError`. -/
def pyGetO (xs : Option (List ℕ)) (i : ℕ) : Except PyErr ℕ :=
  match xs with
  | none => .error .typeError
  | some l => pyGetL l i

/-- Python list index resolution for the 127-row `motor_state` table:
`0 ≤ i < 127` is direct, `-127 ≤ i < 0` wraps from the end, anything else
raises `IndexError`. -/
def pySlot (i : ℤ) : Option ℕ :=
  if 0 ≤ i ∧ i < 127 then some i.toNat
  else if -127 ≤ i ∧ i < 0 then some (127 + i).toNat
  else none

/-- One row of `self.motor_state`: position (degree), speed (r/min), torque
(N·m), temperature (°C), axis-error flag, mode status (`__init__` line 118,
`np.zeros((127, 6))`). -/
structure Motor6 where
  pos : ℚ
  vel : ℚ
  torque : ℚ
  temp : ℚ
  fault : ℚ
  mode : ℚ
deriving DecidableEq, Repr

/-- The all-zero row every slot starts from. -/
def Motor6.zero : Motor6 := ⟨0, 0, 0, 0, 0, 0⟩

/-- Motor-control constants from `__init__` (lines 67–82).  `cm.pi` is kept
as a parameter `piQ`; the code only ever uses it through the two ratios
`RAD_DEG = 180 / pi` and `RAD_S_R_MIN = 30 / pi`. -/
def P_MIN : ℚ := -12.5

def P_MAX : ℚ := 12.5

def V_MIN : ℚ := -30

def V_MAX : ℚ := 30

def T_MIN : ℚ := -12

def T_MAX : ℚ := 12

def RAD_DEG (piQ : ℚ) : ℚ := 180 / piQ

def RAD_S_R_MIN (piQ : ℚ) : ℚ := 30 / piQ

/-- The state-store update of `_reply_state` (lines 499–531) once a frame
`rdata` with `READ_FLAG == 1` and `rdata[1] == 2` is in hand: `cmd_data =
[rdata[3], rdata[2]]`, the row index is `rdata[3] - 1` under Python list
indexing (so a reply id of 0 wraps to the last row, and ids ≥ 128 raise
`IndexError` at the first field assignment, before anything is written),
`data = rdata[5:]`, and the six fields of the row are assigned.  Frames
reaching this point from `_uart_to_can` always have 13 bytes; the final
`else` mirrors the `IndexError` an out-of-range subscript would raise. -/
def replyUpdates (piQ : ℚ) (rdata : List ℕ) (st : ℕ → Motor6) :
    Except PyErr (ℕ → Motor6) :=
  if rdata.length = 13 then
    match pySlot ((rdata.getD 3 0 : ℤ) - 1) with
    | none => .error .indexError
    | some s =>
      .ok (Function.update st s
        { pos := uint_to_float
            ((((rdata.drop 5).getD 0 0 <<< 8) + (rdata.drop 5).getD 1 0 : ℕ) : ℤ)
            P_MIN P_MAX 16 * RAD_DEG piQ
          vel := uint_to_float
            ((((rdata.drop 5).getD 2 0 <<< 8) + (rdata.drop 5).getD 3 0 : ℕ) : ℤ)
            V_MIN V_MAX 16 * RAD_S_R_MIN piQ
          torque := uint_to_float
            ((((rdata.drop 5).getD 4 0 <<< 8) + (rdata.drop 5).getD 5 0 : ℕ) : ℤ)
            T_MIN T_MAX 16
          temp := ((((rdata.drop 5).getD 6 0 <<< 8) + (rdata.drop 5).getD 7 0 : ℕ) : ℚ)
            * (0.1 : ℚ)
          fault := if rdata.getD 2 0 &&& 0x3F ≠ 0 then 1 else 0
          mode := (((rdata.getD 2 0 >>> 6) &&& 0x03 : ℕ) : ℚ) })
  else .error .indexError

/-- `_reply_state` (lines 474–533) after its receive step, as a pure state
transformer: the guard `id_num <= self.MOTOR_NUM` on the function's own
argument, then `READ_FLAG == 1 and rdata[1] == 2` before decoding; the
enclosing `try` turns every exception into "store unchanged". -/
def replyStatePure (piQ : ℚ) (idParam : ℕ) (flag : ℤ)
    (rdata : Option (List ℕ)) (st : ℕ → Motor6) : ℕ → Motor6 :=
  if idParam ≤ 127 then
    if flag = 1 then
      match pyGetO rdata 1 with
      | .error _ => st
      | .ok b =>
        if b = 2 then
          match replyUpdates piQ (rdata.getD []) st with
          | .ok st' => st'
          | .error _ => st
        else st
    else st
  else st

/-- The type tags of `_format_data`: `type_list = ['u8', 's8', 'u16', 's16',
'u32', 's32', 'f']` (lines 562, 613). -/
inductive DType where
  | u8
  | s8
  | u16
  | s16
  | u32
  | s32
  | f
deriving DecidableEq, Repr

/-- `type_list.index(data_type)`. -/
def DType.index : DType → ℕ
  | .u8 => 0
  | .s8 => 1
  | .u16 => 2
  | .s16 => 3
  | .u32 => 4
  | .s32 => 5
  | .f => 6

/-- The state of one `CyberGear` connection plus the module-scope globals of
`CyberGear.py` and the serial line.  `inbox` holds the byte chunks the
successive `_read_port` calls will find waiting; `sent` records every buffer
handed to `serial.write`.  `fenc`/`fdec` are the abstract IEEE-754 single
codec of `struct.pack/unpack 'f'` (bit-level floats are outside the
rational embedding; no claim below depends on their values). -/
structure World where
  model : Model
  piQ : ℚ
  fenc : ℚ → List ℕ
  fdec : List ℕ → ℚ
  readFlag : ℤ
  mcuId : List ℕ
  gReadFlag : Option ℤ
  gMcuId : Option (List ℕ)
  motorState : ℕ → Motor6
  inbox : List (List ℕ)
  sent : List (List ℕ)

/-- A fresh `CyberGear(...)` instance (`__init__` lines 104–118) with the
module globals as they are after import: the bare names `READ_FLAG` and
`MCU_ID` are unbound at module scope (`self.READ_FLAG` / `self.MCU_ID` are
instance attributes), and nothing in the module ever assigns them —
`get_volcur` only declares `global READ_FLAG`, and `get_id`'s `global
MCU_ID` assignment is unreachable (see `getId`). -/

def initWorld (m : Model) (piQ : ℚ) (fenc : ℚ → List ℕ) (fdec : List ℕ → ℚ)
    (inbox : List (List ℕ)) : World :=
  { model := m, piQ := piQ, fenc := fenc, fdec := fdec, readFlag := 0,
    mcuId := [], gReadFlag := none, gMcuId := none,
    motorState := fun _ => Motor6.zero, inbox := inbox, sent := [] }

/-- `_write_port` (lines 120–147): flush whatever input is pending, then
write the buffer.  The transport write itself is assumed to succeed (all
claims below are conditioned on the transport not raising); the pre-write
flush is subsumed by the inbox abstraction. -/
def writePort (d : List ℕ) (w : World) : World :=
  {w with sent := w.sent ++ [d]}

/-- `_read_port` (lines 149–178): collect the bytes currently waiting (the
head chunk; an exhausted inbox is a poll timeout with no bytes).  If they
number exactly `num`, set `READ_FLAG = 1` and return them; otherwise set
`READ_FLAG = -1` and return `None`. -/
def readPort (num : ℕ) (w : World) : World × Option (List ℕ) :=
  match w.inbox with
  | [] => ({w with readFlag := -1, inbox := []}, none)
  | c :: rest =>
    if c.length = num then ({w with readFlag := 1, inbox := rest}, some c)
    else ({w with readFlag := -1, inbox := rest}, none)

/-- `_receive_can` (lines 276–291): read 16 bytes; if that succeeded
(`READ_FLAG == 1`), run `_uart_to_can` and look at `cdata[1]` — an empty
frame from a failed `_uart_to_can` raises `IndexError` there, and a frame
whose second byte is 21 triggers `self._dump_error(cdata, True)`, a call
that raises `TypeError` because `_dump_error` (line 424) takes one
positional argument.  When the read failed, fall through and return
`None`. -/
def receiveCan (w : World) : World × Except PyErr (Option (List ℕ)) :=
  match readPort 16 w with
  | (w1, u) =>
    if w1.readFlag = 1 then
      match u with
      | none => (w1, .error .typeError)
      | some d =>
        match uart_to_can w1.model w1.readFlag d with
        | (f', c) =>
          match pyGetL c 1 with
          | .error e => ({w1 with readFlag := f'}, .error e)
          | .ok b =>
            if b = 21 then ({w1 with readFlag := f'}, .error .typeError)
            else ({w1 with readFlag := f'}, .ok (some c))
    else (w1, .ok none)

/-- `_reply_state` (lines 474–533) as a state transformer: `READ_FLAG = 0`,
receive, then decode via `replyUpdates` when `READ_FLAG == 1 and rdata[1] ==
2`; the enclosing `try/except` converts every exception into "keep the
state mutations made so far and return". -/
def replyState (idParam : ℕ) (w : World) : World :=
  if idParam ≤ 127 then
    match receiveCan {w with readFlag := 0} with
    | (w1, .error _) => w1
    | (w1, .ok rdataOpt) =>
      if w1.readFlag = 1 then
        match pyGetO rdataOpt 1 with
        | .error _ => w1
        | .ok b =>
          if b = 2 then
            match replyUpdates w1.piQ (rdataOpt.getD []) w1.motorState with
            | .ok st' => {w1 with motorState := st'}
            | .error _ => w1
          else w1
      else w1
  else w

/-- The 13-byte CAN message `_send_can` (lines 240–274) assembles before
enveloping: model-specific header from `cmd_mode`, `cmd_data` and `id_num`,
then `cdata[5 + i] = data[i]` for `i < 8` (an `IndexError` if `data` is
shorter).  Note the `"CAN"` header bytes carry no `& 0xff` mask except the
third. -/
def sendCanCdata (m : Model) (id_num cmd_mode : ℕ) (cmd_data data : List ℕ) :
    Except PyErr (List ℕ) :=
  match pyGetL cmd_data 1, pyGetL cmd_data 0 with
  | .ok cd1, .ok cd0 =>
    if data.length < 8 then .error .indexError
    else
      match m with
      | .DR => .ok ([0x08, cmd_mode, cd1, cd0, id_num] ++ data.take 8)
      | .CAN => .ok ([(cmd_mode <<< 3) ||| (cd1 >>> 5),
          (cd1 <<< 3) ||| (cd0 >>> 5),
          ((cd0 <<< 3) ||| (id_num >>> 5)) &&& 0xff,
          (id_num <<< 3) ||| 0x04, 0x08] ++ data.take 8)
  | .error e, _ => .error e
  | _, .error e => .error e

/-- `_send_can`: assemble `cdata`, envelope it with `_can_to_uart`, write it
to the port. -/
def sendCan (id_num cmd_mode : ℕ) (cmd_data data : List ℕ) (w : World) :
    World × Except PyErr Unit :=
  match sendCanCdata w.model id_num cmd_mode cmd_data data with
  | .error e => (w, .error e)
  | .ok cdata => (writePort (can_to_uart w.model cdata) w, .ok ())

/-- `motor_stop` (lines 653–676): send opcode 4 with a zero payload, then
process one reply. -/
def motorStop (id_num : ℕ) (w : World) : World × Except PyErr Unit :=
  match sendCan id_num 4 [0, 0] (List.replicate 8 0) w with
  | (w1, .error e) => (w1, .error e)
  | (w1, .ok _) => (replyState id_num w1, .ok ())

/-- Little-endian byte serialization of a nonnegative integer. -/
def leBytes (k : ℕ) (m : ℕ) : List ℕ :=
  (List.range k).map fun i => (m / 256 ^ i) % 256

/-- Padding step of `_format_data(type='encode')` (lines 368–370): append
zero bytes until the result has at least 4 bytes. -/
def padTo4 (l : List ℕ) : List ℕ :=
  if l.length < 4 then l ++ List.replicate (4 - l.length) 0 else l

/-- `_format_data(..., type='encode')` (lines 340–371) on one value:
`int()`-truncate for every non-`f` tag, `struct.pack` little-endian with
its range checks (`struct.error` on an out-of-range value), then zero-pad
to at least 4 bytes.  Tag `f` packs through the abstract codec `fenc`. -/
def formatDataEncode (fenc : ℚ → List ℕ) (dt : DType) (v : ℚ) :
    Except PyErr (List ℕ) :=
  match dt with
  | .f => .ok (padTo4 (fenc v))
  | .u8 =>
    let n := pyInt v
    if 0 ≤ n ∧ n < 256 then .ok (padTo4 (leBytes 1 n.toNat))
    else .error .structError
  | .s8 =>
    let n := pyInt v
    if -128 ≤ n ∧ n < 128 then .ok (padTo4 (leBytes 1 (n % 256).toNat))
    else .error .structError
  | .u16 =>
    let n := pyInt v
    if 0 ≤ n ∧ n < 65536 then .ok (padTo4 (leBytes 2 n.toNat))
    else .error .structError
  | .s16 =>
    let n := pyInt v
    if -32768 ≤ n ∧ n < 32768 then .ok (padTo4 (leBytes 2 (n % 65536).toNat))
    else .error .structError
  | .u32 =>
    let n := pyInt v
    if 0 ≤ n ∧ n < 4294967296 then .ok (padTo4 (leBytes 4 n.toNat))
    else .error .structError
  | .s32 =>
    let n := pyInt v
    if -2147483648 ≤ n ∧ n < 2147483648 then
      .ok (padTo4 (leBytes 4 (n % 4294967296).toNat))
    else .error .structError

/-- `_write_prop` (lines 535–586): build the request — `cmd_mode = 8` plus a
type-tag byte at `tx_data[2]` when `index < 0x7000`, `cmd_mode = 18`
otherwise, value encoded into `tx_data[4:]` — send it and process one
reply; then, only for `cmd_mode == 8`, the persistence step: `motor_stop`
(itself a send + reply round trip), the commit frame (`cmd_data[1] = 0x02`,
zero payload), a fixed sleep, and a final reply.  Nothing checks the first
round trip's outcome before continuing. -/
def writeProp (id_num index : ℕ) (dt : DType) (v : ℚ) (w : World) :
    World × Except PyErr Unit :=
  let cmd_mode : ℕ := if index < 0x7000 then 8 else 18
  let tx0 : List ℕ :=
    [index &&& 0xFF, (index >>> 8) &&& 0xFF,
      if index < 0x7000 then DType.index dt else 0, 0, 0, 0, 0, 0]
  match formatDataEncode w.fenc dt v with
  | .error e => (w, .error e)
  | .ok enc =>
    match sendCan id_num cmd_mode [0, 0] (tx0.take 4 ++ enc) w with
    | (w1, .error e) => (w1, .error e)
    | (w1, .ok _) =>
      let w2 := replyState id_num w1
      if cmd_mode = 8 then
        match motorStop id_num w2 with
        | (w3, .error e) => (w3, .error e)
        | (w3, .ok _) =>
          match sendCan id_num cmd_mode [0, 0x02] (List.replicate 8 0) w3 with
          | (w4, .error e) => (w4, .error e)
          | (w4, .ok _) => (replyState id_num w4, .ok ())
      else (w2, .ok ())

/-- `get_id` (lines 999–1024): send opcode 0 with `cmd_data = [0xFD, 0]`,
receive, then evaluate the bare module global `READ_FLAG` — a name never
bound at module scope, so the comparison raises `NameError` before the
`global MCU_ID` success branch can run. -/
def getId (id_num : ℕ) (w : World) : World × Except PyErr (Option ℕ) :=
  match sendCan id_num 0 [0xFD, 0] (List.replicate 8 0) w with
  | (w1, .error e) => (w1, .error e)
  | (w1, .ok _) =>
    match receiveCan w1 with
    | (w2, .error e) => (w2, .error e)
    | (w2, .ok dataOpt) =>
      match w2.gReadFlag with
      | none => (w2, .error .nameError)
      | some rf =>
        if rf = 1 then
          match pyGetO dataOpt 1 with
          | .error e => (w2, .error e)
          | .ok b =>
            if b = 0 then
              ({w2 with gMcuId := some ((dataOpt.getD []).drop 5)},
                .ok (some id_num))
            else (w2, .ok none)
        else (w2, .ok none)

/-- `set_id` (lines 894–933): stop the motor, sleep, call `get_id`, then
test `len(MCU_ID)` where `MCU_ID` is read as a bare module global; `set_id`
has no exception handler, so anything `get_id` raises propagates. -/
def setId (id_num new_id : ℕ) (w : World) : World × Except PyErr Bool :=
  match motorStop id_num w with
  | (w1, .error e) => (w1, .error e)
  | (w1, .ok _) =>
    match getId id_num w1 with
    | (w2, .error e) => (w2, .error e)
    | (w2, .ok _) =>
      match w2.gMcuId with
      | none => (w2, .error .nameError)
      | some mcu =>
        if mcu.length = 8 then
          match sendCan id_num 7 [0, new_id &&& 0xFF] mcu w2 with
          | (w3, .error e) => (w3, .error e)
          | (w3, .ok _) => (replyState id_num w3, .ok true)
        else (w2, .ok false)

/-- `_format_data(..., type='decode')` (lines 312–339) on one tag, reading
from the front of `bytes`; tag `f` is the abstract IEEE decode `fdec` of
the 4 bytes consumed.  (Only reachable in `_read_prop` behind the unbound
`READ_FLAG` global, so no claim depends on it.) -/
def formatDataDecode (fdec : List ℕ → ℚ) (dt : DType) (bytes : List ℕ) : ℚ :=
  match dt with
  | .f => fdec (bytes.take 4)
  | .u8 => (bytes.getD 0 0 : ℚ)
  | .s8 =>
    if bytes.getD 0 0 < 128 then (bytes.getD 0 0 : ℚ)
    else (bytes.getD 0 0 : ℚ) - 256
  | .u16 => ((bytes.getD 0 0 + 256 * bytes.getD 1 0 : ℕ) : ℚ)
  | .s16 =>
    if bytes.getD 0 0 + 256 * bytes.getD 1 0 < 32768 then
      ((bytes.getD 0 0 + 256 * bytes.getD 1 0 : ℕ) : ℚ)
    else ((bytes.getD 0 0 + 256 * bytes.getD 1 0 : ℕ) : ℚ) - 65536
  | .u32 => ((bytes.getD 0 0 + 256 * bytes.getD 1 0 + 65536 * bytes.getD 2 0
      + 16777216 * bytes.getD 3 0 : ℕ) : ℚ)
  | .s32 =>
    if bytes.getD 0 0 + 256 * bytes.getD 1 0 + 65536 * bytes.getD 2 0
        + 16777216 * bytes.getD 3 0 < 2147483648 then
      ((bytes.getD 0 0 + 256 * bytes.getD 1 0 + 65536 * bytes.getD 2 0
        + 16777216 * bytes.getD 3 0 : ℕ) : ℚ)
    else ((bytes.getD 0 0 + 256 * bytes.getD 1 0 + 65536 * bytes.getD 2 0
      + 16777216 * bytes.getD 3 0 : ℕ) : ℚ) - 4294967296

/-- `_read_prop` (lines 588–626): build and send the request (opcode 9 for
`index < 0x7000`, else 17), receive, then evaluate the bare module global
`READ_FLAG` — unbound, so a `NameError` is raised before any value can be
returned; receive-stage exceptions propagate unhandled. -/
def readProp (id_num index : ℕ) (dt : DType) (w : World) :
    World × Except PyErr (Option ℚ) :=
  match sendCan id_num (if index < 0x7000 then 9 else 17) [0, 0]
      [index &&& 0xFF, (index >>> 8) &&& 0xFF,
        if index < 0x7000 then DType.index dt else 0, 0, 0, 0, 0, 0] w with
  | (w1, .error e) => (w1, .error e)
  | (w1, .ok _) =>
    match receiveCan w1 with
    | (w2, .error e) => (w2, .error e)
    | (w2, .ok dataOpt) =>
      match w2.gReadFlag with
      | none => (w2, .error .nameError)
      | some rf =>
        if rf = 1 then
          match pyGetO dataOpt 1 with
          | .error e => (w2, .error e)
          | .ok b =>
            if b = 17 ∨ b = 9 then
              (w2, .ok (some (formatDataDecode w2.fdec dt
                ((dataOpt.getD []).drop 9))))
            else (w2, .ok none)
        else (w2, .ok none)

/-- The three things `get_volcur` can produce: a `[vol, cur]` pair, `None`,
or `False`. -/
inductive GVRes where
  | vals (vol cur : ℚ)
  | noneRes
  | falseRes

/-- Python `round(x, n)` modelled half-up; the difference from the float
half-even rule is immaterial here — every path that would reach `round`
first raises `NameError` on the unbound global `READ_FLAG`. -/
def pyRound (q : ℚ) (n : ℕ) : ℚ := ((round (q * 10 ^ n) : ℤ) : ℚ) / 10 ^ n

/-- `get_volcur` (lines 1062–1096): two `_read_prop` round trips, then the
bare-global `READ_FLAG` test; the `try/except` turns any exception —
including the `NameError` both inner `_read_prop` calls raise, and the
`TypeError` of `round(None, 1)` — into the return value `False`. -/
def getVolcur (id_num : ℕ) (w : World) : World × GVRes :=
  match readProp id_num 0x302b .f w with
  | (w1, .error _) => (w1, .falseRes)
  | (w1, .ok v0) =>
    match readProp id_num 0x301e .f w1 with
    | (w2, .error _) => (w2, .falseRes)
    | (w2, .ok v1) =>
      match w2.gReadFlag with
      | none => (w2, .falseRes)
      | some rf =>
        if rf = 1 then
          match v0, v1 with
          | some a, some b => (w2, .vals (pyRound a 1) (pyRound b 2))
          | _, _ => (w2, .falseRes)
        else (w2, .noneRes)

/-- Connection-state fields untouched by the receive/decode path. -/
def agrees (a b : World) : Prop :=
  a.sent = b.sent ∧ a.model = b.model ∧ a.gReadFlag = b.gReadFlag ∧
  a.gMcuId = b.gMcuId ∧ a.piQ = b.piQ ∧ a.fenc = b.fenc ∧ a.fdec = b.fdec

/-- `agrees` plus an untouched state store. -/
def agreesM (a b : World) : Prop := agrees a b ∧ a.motorState = b.motorState

/-- A fixed abstract float codec and a fresh `"DR"` connection whose serial
input never produces bytes (every read polls out empty). -/
def wEmpty : World := initWorld .DR 3 (fun _ => [0, 0, 0, 0]) (fun _ => 0) []

/-- The same fresh `"DR"` connection with three well-formed type-2 reply
envelopes queued, one per receive, so that every reply round trip
succeeds. -/
def wGood : World := initWorld .DR 3 (fun _ => [0, 0, 0, 0]) (fun _ => 0)
  [[0xAA, 1, 0, 8, 2, 0, 1, 1, 0, 0, 0, 0, 0, 0, 0, 0],
   [0xAA, 1, 0, 8, 2, 0, 1, 1, 0, 0, 0, 0, 0, 0, 0, 0],
   [0xAA, 1, 0, 8, 2, 0, 1, 1, 0, 0, 0, 0, 0, 0, 0, 0]]

/-- A fresh connection constructed with model `"CAN"`, one 16-byte chunk
waiting. -/
def wCAN : World := initWorld .CAN 3 (fun _ => [0, 0, 0, 0]) (fun _ => 0)
  [List.replicate 16 0]

theorem exists_thirteen (f : List ℕ) (h : f.length = 13) :
    ∃ a0 a1 a2 a3 a4 a5 a6 a7 a8 a9 a10 a11 a12,
      f = [a0, a1, a2, a3, a4, a5, a6, a7, a8, a9, a10, a11, a12] := by
  obtain ⟨a0, f, rfl⟩ := List.exists_of_length_succ f h
  simp only [List.length_cons, Nat.succ.injEq] at h
  obtain ⟨a1, f, rfl⟩ := List.exists_of_length_succ f h
  simp only [List.length_cons, Nat.succ.injEq] at h
  obtain ⟨a2, f, rfl⟩ := List.exists_of_length_succ f h
  simp only [List.length_cons, Nat.succ.injEq] at h
  obtain ⟨a3, f, rfl⟩ := List.exists_of_length_succ f h
  simp only [List.length_cons, Nat.succ.injEq] at h
  obtain ⟨a4, f, rfl⟩ := List.exists_of_length_succ f h
  simp only [List.length_cons, Nat.succ.injEq] at h
  obtain ⟨a5, f, rfl⟩ := List.exists_of_length_succ f h
  simp only [List.length_cons, Nat.succ.injEq] at h
  obtain ⟨a6, f, rfl⟩ := List.exists_of_length_succ f h
  simp only [List.length_cons, Nat.succ.injEq] at h
  obtain ⟨a7, f, rfl⟩ := List.exists_of_length_succ f h
  simp only [List.length_cons, Nat.succ.injEq] at h
  obtain ⟨a8, f, rfl⟩ := List.exists_of_length_succ f h
  simp only [List.length_cons, Nat.succ.injEq] at h
  obtain ⟨a9, f, rfl⟩ := List.exists_of_length_succ f h
  simp only [List.length_cons, Nat.succ.injEq] at h
  obtain ⟨a10, f, rfl⟩ := List.exists_of_length_succ f h
  simp only [List.length_cons, Nat.succ.injEq] at h
  obtain ⟨a11, f, rfl⟩ := List.exists_of_length_succ f h
  simp only [List.length_cons, Nat.succ.injEq] at h
  obtain ⟨a12, f, rfl⟩ := List.exists_of_length_succ f h
  simp only [List.length_cons, Nat.succ.injEq] at h
  rw [List.length_eq_zero] at h
  subst h
  exact ⟨a0, a1, a2, a3, a4, a5, a6, a7, a8, a9, a10, a11, a12, rfl⟩

/-- C1: for every well-formed 13-byte logical CAN frame (DLC byte `0x08` in
the variant's expected slot: index 0 for model `"DR"`, index 4 for model
`"CAN"`), decoding the serial envelope produced by encoding the frame
returns the frame unchanged and leaves `READ_FLAG` untouched, for both
transport variants. -/
theorem frame_roundtrip (f g : List ℕ) (flag : ℤ)
    (hf : f.length = 13) (hf0 : f.getD 0 0 = 0x08)
    (hg : g.length = 13) (hg4 : g.getD 4 0 = 0x08) :
    uart_to_can .DR flag (can_to_uart .DR f) = (flag, f) ∧
    uart_to_can .CAN flag (can_to_uart .CAN g) = (flag, g) := by
  obtain ⟨a0, a1, a2, a3, a4, a5, a6, a7, a8, a9, a10, a11, a12, rfl⟩ :=
    exists_thirteen f hf
  obtain ⟨b0, b1, b2, b3, b4, b5, b6, b7, b8, b9, b10, b11, b12, rfl⟩ :=
    exists_thirteen g hg
  simp only [List.getD, List.get?, Option.getD] at hf0 hg4
  subst hf0; subst hg4
  constructor <;> rfl

/-- Concrete instance of `frame_roundtrip`. -/
theorem frame_roundtrip_witness :
    uart_to_can .DR 1
        (can_to_uart .DR [8, 2, 0, 1, 127, 10, 20, 30, 40, 50, 60, 70, 80]) =
      (1, [8, 2, 0, 1, 127, 10, 20, 30, 40, 50, 60, 70, 80]) ∧
    uart_to_can .CAN 1
        (can_to_uart .CAN [17, 34, 51, 68, 8, 1, 2, 3, 4, 5, 6, 7, 9]) =
      (1, [17, 34, 51, 68, 8, 1, 2, 3, 4, 5, 6, 7, 9]) :=
  frame_roundtrip [8, 2, 0, 1, 127, 10, 20, 30, 40, 50, 60, 70, 80]
    [17, 34, 51, 68, 8, 1, 2, 3, 4, 5, 6, 7, 9] 1
    (by decide) (by decide) (by decide) (by decide)

/-- C4: envelope decoding fails deterministically — `READ_FLAG` forced to
`-1` and an empty result, never a partially populated frame — exactly when
the buffer is not a well-formed envelope of the variant (wrong length, or
DLC marker `0x08` absent at the variant's fixed offset); on a well-formed
envelope it yields a full 13-byte frame and leaves the flag unchanged. -/
theorem uart_to_can_malformed (m : Model) (flag : ℤ) (data : List ℕ) :
    (¬ envelopeOK m data → uart_to_can m flag data = (-1, [])) ∧
    (envelopeOK m data →
      (uart_to_can m flag data).1 = flag ∧
      (uart_to_can m flag data).2.length = 13) := by
  cases m <;>
    simp only [envelopeOK, uart_to_can, setRange] <;>
    constructor
  · intro hbad
    rw [if_neg hbad]
  · rintro ⟨hlen, hdlc⟩
    rw [if_pos ⟨hlen, hdlc⟩]
    refine ⟨rfl, ?_⟩
    simp [List.length_take, List.length_drop, hlen]
  · intro hbad
    rw [if_neg hbad]
  · rintro ⟨hlen, hdlc⟩
    rw [if_pos ⟨hlen, hdlc⟩]
    refine ⟨rfl, ?_⟩
    simp [List.length_take, List.length_drop, hlen]

/-- Concrete instances of `uart_to_can_malformed`: a short buffer is
rejected with flag `-1` and empty output; a 16-byte buffer with the DLC
marker at offset 3 decodes to a 13-byte frame. -/
theorem uart_to_can_malformed_witness :
    uart_to_can .DR 1 [1, 2, 3] = (-1, []) ∧
    (uart_to_can .DR 1 [0xAA, 1, 0, 8, 9, 9, 9, 9, 9, 9, 9, 9, 9, 9, 9, 9]).1 = 1 ∧
    (uart_to_can .DR 1 [0xAA, 1, 0, 8, 9, 9, 9, 9, 9, 9, 9, 9, 9, 9, 9, 9]).2.length = 13 :=
  ⟨(uart_to_can_malformed .DR 1 [1, 2, 3]).1 (by decide),
   (uart_to_can_malformed .DR 1
      [0xAA, 1, 0, 8, 9, 9, 9, 9, 9, 9, 9, 9, 9, 9, 9, 9]).2 (by decide)⟩

theorem pyInt_of_nonneg (q : ℚ) (h : 0 ≤ q) : pyInt q = ⌊q⌋ := by
  rw [pyInt, if_pos h]

theorem shiftLeft_one_cast (bits : ℕ) : ((1 <<< bits : ℕ) : ℚ) = 2 ^ bits := by
  rw [Nat.shiftLeft_eq, one_mul]
  push_cast
  ring

/-- C2: for bounds `min < max`, `_float_to_uint` first clamps its argument
into `[min, max]` and then returns `floor((x - min) * (2^bits - 1) / (max -
min))` (the truncation coincides with `floor` because the clamped quantity
is nonnegative); consequently every over-range input quantizes like the
nearer bound. -/
theorem float_to_uint_clamp_floor (x lo hi : ℚ) (bits : ℕ) (h : lo < hi) :
    float_to_uint x lo hi bits =
      ⌊(max lo (min hi x) - lo) * ((2 : ℚ) ^ bits - 1) / (hi - lo)⌋ ∧
    (∀ ε : ℚ, 0 < ε →
      float_to_uint (hi + ε) lo hi bits = float_to_uint hi lo hi bits ∧
      float_to_uint (lo - ε) lo hi bits = float_to_uint lo lo hi bits) := by
  have hone : (1 : ℚ) ≤ 2 ^ bits := by
    calc (1 : ℚ) = 2 ^ (0 : ℕ) := by norm_num
      _ ≤ 2 ^ bits := pow_le_pow_right₀ (by norm_num) (Nat.zero_le bits)
  constructor
  · have hclamp : (if x > hi then hi else if x < lo then lo else x)
        = max lo (min hi x) := by
      split_ifs with h1 h2
      · rw [min_eq_left h1.le, max_eq_right h.le]
      · rw [min_eq_right (le_of_not_lt h1), max_eq_left h2.le]
      · rw [min_eq_right (le_of_not_lt h1), max_eq_right (le_of_not_lt h2)]
    unfold float_to_uint
    rw [hclamp, shiftLeft_one_cast]
    apply pyInt_of_nonneg
    have hm : lo ≤ max lo (min hi x) := le_max_left _ _
    have h1 : (0 : ℚ) ≤ max lo (min hi x) - lo := by linarith
    have h2 : (0 : ℚ) ≤ 2 ^ bits - 1 := by linarith
    have h3 : (0 : ℚ) ≤ hi - lo := by linarith
    exact div_nonneg (mul_nonneg h1 h2) h3
  · intro ε hε
    constructor
    · have e1 : (if hi + ε > hi then hi else if hi + ε < lo then lo else hi + ε)
          = hi := by
        rw [if_pos (by linarith)]
      have e2 : (if hi > hi then hi else if hi < lo then lo else hi) = hi := by
        rw [if_neg (lt_irrefl hi), if_neg (not_lt.mpr h.le)]
      unfold float_to_uint
      rw [e1, e2]
    · have e1 : (if lo - ε > hi then hi else if lo - ε < lo then lo else lo - ε)
          = lo := by
        rw [if_neg (by linarith), if_pos (by linarith)]
      have e2 : (if lo > hi then hi else if lo < lo then lo else lo) = lo := by
        rw [if_neg (not_lt.mpr h.le), if_neg (lt_irrefl lo)]
      unfold float_to_uint
      rw [e1, e2]

/-- Concrete instance of `float_to_uint_clamp_floor` at range `[0, 10]`,
4 bits. -/
theorem float_to_uint_clamp_floor_witness :
    float_to_uint 20 0 10 4 =
      ⌊(max 0 (min 10 20) - 0) * ((2 : ℚ) ^ 4 - 1) / ((10 : ℚ) - 0)⌋ ∧
    float_to_uint (10 + 1) 0 10 4 = float_to_uint 10 0 10 4 ∧
    float_to_uint (0 - 1) 0 10 4 = float_to_uint 0 0 10 4 :=
  ⟨(float_to_uint_clamp_floor 20 0 10 4 (by norm_num)).1,
   ((float_to_uint_clamp_floor 20 0 10 4 (by norm_num)).2 1 (by norm_num)).1,
   ((float_to_uint_clamp_floor 20 0 10 4 (by norm_num)).2 1 (by norm_num)).2⟩

/-- C3: for `min < max`, a positive bit width, and `x` inside `[min, max]`,
dequantizing the quantization of `x` lands within one quantization step
`(max - min) / (2^bits - 1)` of `x`. -/
theorem dequantize_quantize_step (x lo hi : ℚ) (bits : ℕ)
    (hrange : lo < hi) (hb : 0 < bits) (hx1 : lo ≤ x) (hx2 : x ≤ hi) :
    |uint_to_float (float_to_uint x lo hi bits) lo hi bits - x| ≤
      (hi - lo) / ((2 : ℚ) ^ bits - 1) := by
  have h2b : (2 : ℚ) ≤ 2 ^ bits := by
    calc (2 : ℚ) = 2 ^ (1 : ℕ) := by norm_num
      _ ≤ 2 ^ bits := pow_le_pow_right₀ (by norm_num) hb
  obtain ⟨N, hN⟩ : ∃ N : ℚ, N = 2 ^ bits - 1 := ⟨_, rfl⟩
  have hN0 : 0 < N := by rw [hN]; linarith
  have hs : 0 < hi - lo := by linarith
  obtain ⟨t, ht⟩ : ∃ t : ℚ, t = (x - lo) * N / (hi - lo) := ⟨_, rfl⟩
  have hsZcast : ((((1 <<< bits : ℕ) : ℤ) - 1 : ℤ) : ℚ) = N := by
    push_cast [Nat.shiftLeft_eq, one_mul]
    rw [hN]
  have ht0 : 0 ≤ t := by
    rw [ht]
    exact div_nonneg (mul_nonneg (by linarith) hN0.le) hs.le
  have hq : float_to_uint x lo hi bits = ⌊t⌋ := by
    unfold float_to_uint
    rw [if_neg (not_lt.mpr hx2), if_neg (not_lt.mpr hx1), shiftLeft_one_cast,
      ← hN, ← ht]
    exact pyInt_of_nonneg _ ht0
  have htN : t ≤ N := by
    rw [ht, div_le_iff₀ hs]
    have hxs : x - lo ≤ hi - lo := by linarith
    calc (x - lo) * N ≤ (hi - lo) * N :=
          mul_le_mul_of_nonneg_right hxs hN0.le
      _ = N * (hi - lo) := mul_comm _ _
  have hfl0 : (0 : ℤ) ≤ ⌊t⌋ := Int.floor_nonneg.mpr ht0
  have hflN : ((⌊t⌋ : ℤ) : ℚ) ≤ N := le_trans (Int.floor_le t) htN
  have hZle : ⌊t⌋ ≤ ((1 <<< bits : ℕ) : ℤ) - 1 := by
    have h' : ((⌊t⌋ : ℤ) : ℚ) ≤ ((((1 <<< bits : ℕ) : ℤ) - 1 : ℤ) : ℚ) := by
      rw [hsZcast]; exact hflN
    exact_mod_cast h'
  have hde : uint_to_float ⌊t⌋ lo hi bits = (hi - lo) * (⌊t⌋ : ℚ) / N + lo := by
    unfold uint_to_float
    rw [if_neg (not_lt.mpr hZle), if_neg (not_lt.mpr hfl0), hsZcast]
  have hN' : N ≠ 0 := hN0.ne'
  have hs' : hi - lo ≠ 0 := hs.ne'
  have hxe : x = (hi - lo) * t / N + lo := by
    rw [ht]
    field_simp
  have h1 : (⌊t⌋ : ℚ) ≤ t := Int.floor_le t
  have h2 : t < (⌊t⌋ : ℚ) + 1 := Int.lt_floor_add_one t
  rw [hq, hde, ← hN]
  have hrw : (hi - lo) * (⌊t⌋ : ℚ) / N + lo - x
      = -((hi - lo) * (t - ⌊t⌋) / N) := by
    rw [hxe]
    ring
  rw [hrw, abs_neg, abs_of_nonneg
    (div_nonneg (mul_nonneg hs.le (by linarith)) hN0.le)]
  have hle : (hi - lo) * (t - ⌊t⌋) ≤ (hi - lo) * 1 :=
    mul_le_mul_of_nonneg_left (by linarith) hs.le
  have hfin := (div_le_div_iff_of_pos_right hN0).mpr hle
  rwa [mul_one] at hfin

/-- Concrete instance of `dequantize_quantize_step` at `x = 1`, range
`[0, 10]`, 4 bits. -/
theorem dequantize_quantize_step_witness :
    |uint_to_float (float_to_uint 1 0 10 4) 0 10 4 - 1| ≤
      ((10 : ℚ) - 0) / ((2 : ℚ) ^ 4 - 1) :=
  dequantize_quantize_step 1 0 10 4 (by norm_num) (by norm_num)
    (by norm_num) (by norm_num)

/-- C5: for a successfully received 13-byte reply (`READ_FLAG == 1`) whose
opcode byte `rdata[1]` equals 2, `_reply_state` writes into the state-store
row indexed by the device id `rdata[3]` embedded in the reply itself: bytes
5/6 as a big-endian 16-bit field dequantized over `[-12.5, 12.5]` rad and
converted to degrees (`* 180/π`); bytes 7/8 over `[-30, 30]` rad/s
converted to r/min (`* 30/π`); bytes 9/10 over `[-12, 12]` N·m with no
conversion; bytes 11/12 times 0.1 as temperature; the fault flag from the
6-bit mask `rdata[2] & 0x3F` and the mode from bits 6–7 of `rdata[2]`.
Every other row — in particular the row of the id the request addressed,
when it differs — is untouched. -/
theorem reply_state_decodes (piQ : ℚ) (idParam : ℕ) (l : List ℕ)
    (st : ℕ → Motor6)
    (hid : idParam ≤ 127) (hlen : l.length = 13) (hop : l.getD 1 0 = 2)
    (hlo : 1 ≤ l.getD 3 0) (hhi : l.getD 3 0 ≤ 127) :
    replyStatePure piQ idParam 1 (some l) st =
      Function.update st (l.getD 3 0 - 1)
        { pos := uint_to_float ((256 * l.getD 5 0 + l.getD 6 0 : ℕ) : ℤ)
            (-12.5) 12.5 16 * (180 / piQ)
          vel := uint_to_float ((256 * l.getD 7 0 + l.getD 8 0 : ℕ) : ℤ)
            (-30) 30 16 * (30 / piQ)
          torque := uint_to_float ((256 * l.getD 9 0 + l.getD 10 0 : ℕ) : ℤ)
            (-12) 12 16
          temp := ((256 * l.getD 11 0 + l.getD 12 0 : ℕ) : ℚ) * (1 / 10)
          fault := if l.getD 2 0 &&& 0x3F ≠ 0 then 1 else 0
          mode := (((l.getD 2 0 >>> 6) &&& 0x03 : ℕ) : ℚ) } ∧
    (∀ j, j ≠ l.getD 3 0 - 1 →
      replyStatePure piQ idParam 1 (some l) st j = st j) := by
  obtain ⟨a0, a1, a2, a3, a4, a5, a6, a7, a8, a9, a10, a11, a12, rfl⟩ :=
    exists_thirteen l hlen
  simp only [List.getD, List.get?, Option.getD] at hop hlo hhi ⊢
  subst hop
  have hslot : pySlot ((a3 : ℤ) - 1) = some (a3 - 1) := by
    unfold pySlot
    rw [if_pos ⟨by omega, by omega⟩]
    congr 1
    omega
  have hmain : replyStatePure piQ idParam 1
      (some [a0, 2, a2, a3, a4, a5, a6, a7, a8, a9, a10, a11, a12]) st =
      Function.update st (a3 - 1)
        { pos := uint_to_float ((256 * a5 + a6 : ℕ) : ℤ)
            (-12.5) 12.5 16 * (180 / piQ)
          vel := uint_to_float ((256 * a7 + a8 : ℕ) : ℤ)
            (-30) 30 16 * (30 / piQ)
          torque := uint_to_float ((256 * a9 + a10 : ℕ) : ℤ) (-12) 12 16
          temp := ((256 * a11 + a12 : ℕ) : ℚ) * (1 / 10)
          fault := if a2 &&& 0x3F ≠ 0 then 1 else 0
          mode := (((a2 >>> 6) &&& 0x03 : ℕ) : ℚ) } := by
    have c1 : (256 * a5 + a6 : ℕ) = (a5 <<< 8) + a6 := by omega
    have c2 : (256 * a7 + a8 : ℕ) = (a7 <<< 8) + a8 := by omega
    have c3 : (256 * a9 + a10 : ℕ) = (a9 <<< 8) + a10 := by omega
    have c4 : (256 * a11 + a12 : ℕ) = (a11 <<< 8) + a12 := by omega
    have c5 : (0.1 : ℚ) = 1 / 10 := by norm_num
    rw [c1, c2, c3, c4, ← c5]
    simp only [replyStatePure, if_pos hid, if_pos rfl, pyGetO, pyGetL,
      replyUpdates, hslot, List.length_cons, List.length_nil, List.drop,
      List.getD, List.get?, Option.getD, Option.getD_some, P_MIN, P_MAX,
      V_MIN, V_MAX, T_MIN, T_MAX, RAD_DEG, RAD_S_R_MIN]
    norm_num
  refine ⟨hmain, ?_⟩
  intro j hj
  rw [hmain]
  exact Function.update_noteq hj _ _

/-- Concrete instance of `reply_state_decodes`: reply frame with embedded
device id 5; row 10 (a different id) is untouched. -/
theorem reply_state_decodes_witness :
    replyStatePure 3 127 1
        (some [8, 2, 71, 5, 9, 128, 0, 128, 0, 128, 0, 0, 100])
        (fun _ => Motor6.zero) 10 = Motor6.zero :=
  (reply_state_decodes 3 127 [8, 2, 71, 5, 9, 128, 0, 128, 0, 128, 0, 0, 100]
    (fun _ => Motor6.zero) (by decide) (by decide) (by decide) (by decide)
    (by decide)).2 10 (by decide)

theorem agrees_refl (w : World) : agrees w w :=
  ⟨rfl, rfl, rfl, rfl, rfl, rfl, rfl⟩

theorem readPort_agrees (num : ℕ) (w : World) : agreesM (readPort num w).1 w := by
  unfold readPort
  rcases hw : w.inbox with _ | ⟨c, rest⟩
  · exact ⟨⟨rfl, rfl, rfl, rfl, rfl, rfl, rfl⟩, rfl⟩
  · dsimp only
    split <;> exact ⟨⟨rfl, rfl, rfl, rfl, rfl, rfl, rfl⟩, rfl⟩

theorem receiveCan_agrees (w : World) : agreesM (receiveCan w).1 w := by
  have h := readPort_agrees 16 w
  simp only [receiveCan]
  rcases hrp : readPort 16 w with ⟨w1, u⟩
  rw [hrp] at h
  dsimp only at h ⊢
  split
  · rcases u with _ | d
    · exact h
    · dsimp only
      split
      · exact h
      · split
        · exact h
        · exact h
  · exact h

theorem replyState_agrees (idp : ℕ) (w : World) : agrees (replyState idp w) w := by
  have h := (receiveCan_agrees {w with readFlag := 0}).1
  unfold replyState
  split
  · rcases hrc : receiveCan {w with readFlag := 0} with ⟨w1, r⟩
    rw [hrc] at h
    dsimp only at h ⊢
    rcases r with e | rdataOpt
    · exact h
    · dsimp only
      split
      · split
        · exact h
        · split
          · split
            · exact h
            · exact h
          · exact h
      · exact h
  · exact agrees_refl w

theorem sendCan_ok (idp cm : ℕ) (cd data : List ℕ) (w : World)
    (h2 : 2 ≤ cd.length) (h8 : 8 ≤ data.length) :
    ∃ env, sendCan idp cm cd data w = ({w with sent := w.sent ++ [env]}, .ok ()) := by
  have hc : ∃ cdata, sendCanCdata w.model idp cm cd data = .ok cdata := by
    unfold sendCanCdata pyGetL
    rw [dif_pos (show 1 < cd.length by omega), dif_pos (show 0 < cd.length by omega)]
    dsimp only
    rw [if_neg (show ¬ data.length < 8 by omega)]
    cases w.model
    · exact ⟨_, rfl⟩
    · exact ⟨_, rfl⟩
  obtain ⟨cdata, hcd⟩ := hc
  unfold sendCan
  rw [hcd]
  exact ⟨can_to_uart w.model cdata, rfl⟩

theorem motorStop_trace (idp : ℕ) (w : World) :
    ∃ env w', motorStop idp w = (w', .ok ()) ∧
      agrees w' {w with sent := w.sent ++ [env]} := by
  obtain ⟨env, hs⟩ := sendCan_ok idp 4 [0, 0] (List.replicate 8 0) w
    (by norm_num) (by norm_num)
  refine ⟨env, replyState idp {w with sent := w.sent ++ [env]}, ?_, ?_⟩
  · unfold motorStop
    rw [hs]
  · exact replyState_agrees idp {w with sent := w.sent ++ [env]}

theorem readPort_flag (num : ℕ) (w : World) :
    ((readPort num w).1.readFlag = 1 ∧
      ∃ c, (readPort num w).2 = some c ∧ c.length = num) ∨
    ((readPort num w).1.readFlag = -1 ∧ (readPort num w).2 = none) := by
  unfold readPort
  rcases hw : w.inbox with _ | ⟨c, rest⟩
  · exact .inr ⟨rfl, rfl⟩
  · dsimp only
    split_ifs with hc
    · exact .inl ⟨rfl, c, rfl, hc⟩
    · exact .inr ⟨rfl, rfl⟩

theorem padTo4_len (l : List ℕ) : 4 ≤ (padTo4 l).length := by
  unfold padTo4
  split
  · simp only [List.length_append, List.length_replicate]
    omega
  · omega

theorem formatDataEncode_len (fenc : ℚ → List ℕ) (dt : DType) (v : ℚ)
    (enc : List ℕ) (h : formatDataEncode fenc dt v = .ok enc) :
    4 ≤ enc.length := by
  unfold formatDataEncode at h
  cases dt <;> dsimp only at h
  case f =>
    injection h with h2
    rw [← h2]
    exact padTo4_len _
  all_goals first
    | (split at h <;>
        first
          | (injection h with h2; rw [← h2]; exact padTo4_len _)
          | exact absurd h (by simp))

/-- C6 counterexample: a property write to an index `< 0x7000` performs
three request/reply round trips — the write, the stop, the commit — not
two, both when every reply succeeds (`wGood`) and when every reply times
out (`wEmpty`); and in the latter case the first round trip's failure is
not surfaced: the call still completes all three sends and returns
normally. -/
theorem write_prop_two_roundtrips_false :
    (writeProp 1 0x2000 DType.u8 0 wGood).1.sent.length = 3 ∧
    (writeProp 1 0x2000 DType.u8 0 wGood).1.sent.length ≠ 2 ∧
    (writeProp 1 0x2000 DType.u8 0 wEmpty).1.sent.length = 3 ∧
    (writeProp 1 0x2000 DType.u8 0 wEmpty).2 = Except.ok () := by
  refine ⟨rfl, ?_, rfl, rfl⟩
  have h3 : (writeProp 1 0x2000 DType.u8 0 wGood).1.sent.length = 3 := rfl
  omega

/-- C6 amended: for every property write whose index is below `0x7000` (and
whose value the byte codec accepts), `_write_prop` performs exactly three
request/reply round trips — the property write, a stop command, and the
persist-commit — unconditionally: three frames are sent and the call
returns normally regardless of what any reply contained. -/
theorem write_prop_three_roundtrips (idp index : ℕ) (dt : DType) (v : ℚ)
    (w : World) (enc : List ℕ) (hidx : index < 0x7000)
    (he : formatDataEncode w.fenc dt v = .ok enc) :
    (writeProp idp index dt v w).1.sent.length = w.sent.length + 3 ∧
    (writeProp idp index dt v w).2 = .ok () := by
  have hlen := formatDataEncode_len w.fenc dt v enc he
  obtain ⟨e1, hs1⟩ := sendCan_ok idp 8 [0, 0]
    (([index &&& 0xFF, (index >>> 8) &&& 0xFF, DType.index dt,
        0, 0, 0, 0, 0] : List ℕ).take 4 ++ enc) w (by norm_num)
    (by simp only [List.length_append, List.length_take, List.length_cons,
          List.length_nil]; omega)
  simp only [writeProp, if_pos hidx]
  rw [he]
  dsimp only
  rw [hs1]
  dsimp only
  simp only [if_true]
  obtain ⟨e2, w3, hms, hag⟩ :=
    motorStop_trace idp (replyState idp {w with sent := w.sent ++ [e1]})
  rw [hms]
  dsimp only
  obtain ⟨e3, hs3⟩ := sendCan_ok idp 8 [0, 0x02] (List.replicate 8 0) w3
    (by norm_num) (by simp)
  rw [hs3]
  dsimp only
  constructor
  · have hC := (replyState_agrees idp {w3 with sent := w3.sent ++ [e3]}).1
    rw [hC]
    have hB : w3.sent =
        (replyState idp {w with sent := w.sent ++ [e1]}).sent ++ [e2] := hag.1
    have hA : (replyState idp {w with sent := w.sent ++ [e1]}).sent =
        w.sent ++ [e1] :=
      (replyState_agrees idp {w with sent := w.sent ++ [e1]}).1
    show (w3.sent ++ [e3]).length = w.sent.length + 3
    rw [hB, hA]
    simp only [List.length_append, List.length_cons, List.length_nil]
  · rfl

/-- Concrete instance of `write_prop_three_roundtrips`. -/
theorem write_prop_three_roundtrips_witness :
    (writeProp 1 0x2000 DType.u8 0 wEmpty).1.sent.length =
      wEmpty.sent.length + 3 ∧
    (writeProp 1 0x2000 DType.u8 0 wEmpty).2 = .ok () :=
  write_prop_three_roundtrips 1 0x2000 DType.u8 0 wEmpty [0, 0, 0, 0]
    (by norm_num) rfl

/-- C7 (code bug): on a fresh `"DR"` instance whose hardware-id cache was
never populated by a successful `get_id`, `set_id` neither returns the
failure value `False` nor refrains from sending: it sends the stop frame
and the id-request frame and then raises `NameError`, propagated from
`get_id`'s read of the module global `READ_FLAG`, a name no code ever
binds. -/
theorem set_id_raises_nameerror :
    (setId 127 1 wEmpty).2 = Except.error PyErr.nameError ∧
    (setId 127 1 wEmpty).1.sent.length = 2 :=
  ⟨rfl, rfl⟩

theorem or_byte_lt {x y : ℕ} (hx : x < 256) (hy : y < 256) : x ||| y < 256 := by
  have h : Nat.bitwise or x y < 2 ^ 8 := Nat.bitwise_lt (by omega) (by omega)
  have he : x ||| y = Nat.bitwise or x y := rfl
  rw [he]
  omega

/-- C8 counterexample: the variant-B (`"CAN"`) arbitration-ID packing in
`_send_can` leaves the second and fourth header values unmasked: with
device id 127 (in range 1–127) the fourth header value is `(127 << 3) |
0x04 = 1020 > 255`, and with sender-tag high byte 255 the second is `(255
<< 3) | (0 >> 5) = 2040 > 255` — neither fits in one byte. -/
theorem can_header_byte_overflow :
    sendCanCdata .CAN 127 0 [0, 0] (List.replicate 8 0) =
      .ok [0, 0, 3, 1020, 8, 0, 0, 0, 0, 0, 0, 0, 0] ∧
    ¬ (1020 : ℕ) ≤ 255 ∧
    sendCanCdata .CAN 1 0 [0, 255] (List.replicate 8 0) =
      .ok [7, 2040, 0, 12, 8, 0, 0, 0, 0, 0, 0, 0, 0] ∧
    ¬ (2040 : ℕ) ≤ 255 :=
  ⟨rfl, by norm_num, rfl, by norm_num⟩

/-- C8 amended: for opcodes 0–31, byte-sized sender-tag halves, device ids
1–127 and an 8-byte payload, the variant-B packing produces the four header
values below, of which the first always fits in a byte, the third always
fits (it alone carries an `& 0xff` mask), the second fits only when the
sender-tag high byte is below 32, and the fourth only when the device id is
below 32. -/
theorem can_header_bytes_bounded (cmd idn cd0 cd1 : ℕ) (data : List ℕ)
    (hc : cmd ≤ 31) (h0 : cd0 ≤ 255) (h1 : cd1 ≤ 255)
    (hi1 : 1 ≤ idn) (hi2 : idn ≤ 127) (hd : data.length = 8) :
    sendCanCdata .CAN idn cmd [cd0, cd1] data =
      .ok ([(cmd <<< 3) ||| (cd1 >>> 5), (cd1 <<< 3) ||| (cd0 >>> 5),
        ((cd0 <<< 3) ||| (idn >>> 5)) &&& 0xFF, (idn <<< 3) ||| 0x04, 0x08]
        ++ data.take 8) ∧
    (cmd <<< 3) ||| (cd1 >>> 5) ≤ 255 ∧
    ((cd0 <<< 3) ||| (idn >>> 5)) &&& 0xFF ≤ 255 ∧
    (cd1 < 32 → (cd1 <<< 3) ||| (cd0 >>> 5) ≤ 255) ∧
    (idn < 32 → (idn <<< 3) ||| 0x04 ≤ 255) := by
  refine ⟨?_, ?_, ?_, ?_, ?_⟩
  · unfold sendCanCdata pyGetL
    rw [dif_pos (show 1 < ([cd0, cd1] : List ℕ).length by norm_num),
      dif_pos (show 0 < ([cd0, cd1] : List ℕ).length by norm_num)]
    dsimp only
    rw [if_neg (show ¬ data.length < 8 by omega)]
    rfl
  · have hx : cmd <<< 3 < 256 := by
      rw [Nat.shiftLeft_eq]; omega
    have hy : cd1 >>> 5 < 256 := by
      rw [Nat.shiftRight_eq_div_pow]; omega
    have := or_byte_lt hx hy
    omega
  · exact Nat.and_le_right
  · intro h32
    have hx : cd1 <<< 3 < 256 := by rw [Nat.shiftLeft_eq]; omega
    have hy : cd0 >>> 5 < 256 := by rw [Nat.shiftRight_eq_div_pow]; omega
    have := or_byte_lt hx hy
    omega
  · intro h32
    have hx : idn <<< 3 < 256 := by rw [Nat.shiftLeft_eq]; omega
    have hy : (4 : ℕ) < 256 := by omega
    have := or_byte_lt hx hy
    omega

/-- Concrete instance of `can_header_bytes_bounded`. -/
theorem can_header_bytes_bounded_witness :
    sendCanCdata .CAN 5 2 [255, 7] (List.replicate 8 0) =
      .ok ([(2 <<< 3) ||| (7 >>> 5), (7 <<< 3) ||| (255 >>> 5),
        ((255 <<< 3) ||| (5 >>> 5)) &&& 0xFF, (5 <<< 3) ||| 0x04, 0x08]
        ++ (List.replicate 8 0).take 8) ∧
    (2 <<< 3) ||| (7 >>> 5) ≤ 255 ∧
    ((255 <<< 3) ||| (5 >>> 5)) &&& 0xFF ≤ 255 ∧
    (7 < 32 → (7 <<< 3) ||| (255 >>> 5) ≤ 255) ∧
    (5 < 32 → (5 <<< 3) ||| 0x04 ≤ 255) :=
  can_header_bytes_bounded 2 5 255 7 (List.replicate 8 0) (by norm_num)
    (by norm_num) (by norm_num) (by norm_num) (by norm_num) (by simp)

theorem receiveCan_CAN_shape (w : World) (h : w.model = Model.CAN) :
    ((receiveCan w).2 = Except.ok none ∧ (receiveCan w).1.readFlag = -1) ∨
    (receiveCan w).2 = Except.error PyErr.indexError := by
  have hm := (readPort_agrees 16 w).1.2.1
  have hf := readPort_flag 16 w
  simp only [receiveCan]
  rcases hrp : readPort 16 w with ⟨w1, u⟩
  rw [hrp] at hm hf
  dsimp only at hm hf ⊢
  rcases hf with ⟨hf1, c, hu, hc⟩ | ⟨hf1, hu⟩
  · subst hu
    rw [hf1, if_pos rfl]
    dsimp only
    rw [hm, h]
    have hu17 : uart_to_can Model.CAN 1 c = (-1, []) := by
      unfold uart_to_can
      dsimp only
      rw [if_neg]
      rintro ⟨h17, -⟩
      omega
    rw [hu17]
    exact .inr rfl
  · subst hu
    rw [hf1, if_neg (by norm_num)]
    exact .inl ⟨rfl, hf1⟩

theorem replyState_CAN_state (idp : ℕ) (w : World) (h : w.model = Model.CAN) :
    (replyState idp w).motorState = w.motorState := by
  have hsh := receiveCan_CAN_shape {w with readFlag := 0}
    (show ({w with readFlag := 0} : World).model = Model.CAN from h)
  have hag := (receiveCan_agrees {w with readFlag := 0}).2
  unfold replyState
  split
  · rcases hrc : receiveCan {w with readFlag := 0} with ⟨w1, r⟩
    rw [hrc] at hsh hag
    dsimp only at hsh hag ⊢
    rcases r with e | rdataOpt
    · exact hag
    · dsimp only
      rcases hsh with ⟨hok, hfl⟩ | herr
      · rw [if_neg (by simp [hfl])]
        exact hag
      · exact Except.noConfusion herr
  · rfl

/-- C9: on a connection constructed with model `"CAN"`, `_receive_can` can
never return a decoded frame — `_read_port` accepts only exactly 16 bytes
while the variant-B decoder wants 17, so a non-16-byte reply yields `None`
and a 16-byte reply makes `_uart_to_can` fail, upon which `_receive_can`'s
`cdata[1]` check raises `IndexError`; consequently no reply ever updates
the telemetry store. -/
theorem variantB_receive_never_decodes (w : World) (idp : ℕ)
    (h : w.model = Model.CAN) :
    ((receiveCan w).2 = Except.ok none ∨
      (receiveCan w).2 = Except.error PyErr.indexError) ∧
    (replyState idp w).motorState = w.motorState := by
  refine ⟨?_, replyState_CAN_state idp w h⟩
  rcases receiveCan_CAN_shape w h with ⟨hok, _⟩ | herr
  · exact .inl hok
  · exact .inr herr

/-- Concrete instance of `variantB_receive_never_decodes`. -/
theorem variantB_receive_never_decodes_witness :
    ((receiveCan wCAN).2 = Except.ok none ∨
      (receiveCan wCAN).2 = Except.error PyErr.indexError) ∧
    (replyState 127 wCAN).motorState = wCAN.motorState :=
  variantB_receive_never_decodes wCAN 127 rfl

theorem readProp_raises (idp idx : ℕ) (dt : DType) (w : World)
    (h : w.gReadFlag = none) :
    ∃ w' e, readProp idp idx dt w = (w', Except.error e) := by
  obtain ⟨env, hs⟩ := sendCan_ok idp (if idx < 0x7000 then 9 else 17) [0, 0]
    [idx &&& 0xFF, (idx >>> 8) &&& 0xFF,
      if idx < 0x7000 then DType.index dt else 0, 0, 0, 0, 0, 0] w
    (by norm_num) (by simp)
  unfold readProp
  rw [hs]
  dsimp only
  have hg := (receiveCan_agrees {w with sent := w.sent ++ [env]}).1.2.2.1
  rcases hrc : receiveCan {w with sent := w.sent ++ [env]} with ⟨w2, r⟩
  rw [hrc] at hg
  dsimp only at hg ⊢
  rcases r with e | dataOpt
  · exact ⟨w2, e, rfl⟩
  · dsimp only
    have hg2 : w2.gReadFlag = none := by
      rw [hg]
      exact h
    rw [hg2]
    exact ⟨w2, .nameError, rfl⟩

/-- C10: every call of `get_volcur` returns `False` (assuming the transport
itself does not raise): after its receive step `_read_prop` evaluates the
bare name `READ_FLAG`, which is never bound as a module-level global, so
`_read_prop` always raises — `NameError` there, or the receive-stage
`IndexError`/`TypeError` — and `get_volcur`'s handler converts this to
`False`; a `[voltage, current]` pair is never produced. -/
theorem get_volcur_always_false (idp : ℕ) (w : World)
    (h : w.gReadFlag = none) :
    (getVolcur idp w).2 = GVRes.falseRes := by
  obtain ⟨w', e, hr⟩ := readProp_raises idp 0x302b .f w h
  unfold getVolcur
  rw [hr]

/-- Concrete instance of `get_volcur_always_false`. -/
theorem get_volcur_always_false_witness :
    (getVolcur 127 wEmpty).2 = GVRes.falseRes :=
  get_volcur_always_false 127 wEmpty rfl
